import Mathlib

/-!
# go-mongo-api/index.go

A shallow embedding of the meeting handlers (`CreateMeetingEndpoint`,
`GetMeetingEndpoint`, `UpdateMeetingEndpoint`, `DeleteMeetingEndpoint`) and of the
wiki path check (`validPath`, `makeHandler`) of `index.go`.

The MongoDB collection is a list of documents in insertion order.  Every store
call takes the error the backend raises on that call (`none` when it raises
nothing), so that handlers can be studied under arbitrary storage failures.
Go slices are lists: a nil slice and an empty slice are both `[]`.
-/

namespace GoMongoApi

/-! ## primitive.ObjectID -/

/-- The twelve bytes of a `primitive.ObjectID`, read as one big-endian number. -/
structure ObjectID where
  val : Nat
deriving DecidableEq, Repr

/-- The zero value of `primitive.ObjectID`. -/
def NilObjectID : ObjectID := ⟨0⟩

/-- Method `IsZero` of `primitive.ObjectID`. -/
def ObjectID.IsZero (id : ObjectID) : Bool := decide (id = NilObjectID)

/-- Value of one hexadecimal digit, as `encoding/hex` reads it. -/
def fromHexChar (c : Char) : Option Nat :=
  if '0' ≤ c ∧ c ≤ '9' then some (c.toNat - '0'.toNat)
  else if 'a' ≤ c ∧ c ≤ 'f' then some (c.toNat - 'a'.toNat + 10)
  else if 'A' ≤ c ∧ c ≤ 'F' then some (c.toNat - 'A'.toNat + 10)
  else none

/-- Big-endian value of a run of hexadecimal digits, `none` on a bad digit. -/
def hexDecode : List Char → Nat → Option Nat
  | [], acc => some acc
  | c :: cs, acc =>
    match fromHexChar c with
    | none => none
    | some d => hexDecode cs (acc * 16 + d)

/-- The function `primitive.ObjectIDFromHex`: 24 bytes of hexadecimal digits. -/
def ObjectIDFromHex (s : String) : Except String ObjectID :=
  if s.utf8ByteSize ≠ 24 then .error "the provided hex string is not a valid ObjectID"
  else
    match hexDecode s.data 0 with
    | none => .error "encoding/hex: invalid byte"
    | some n => .ok ⟨n⟩

/-- The call shape `id, _ := primitive.ObjectIDFromHex(s)`: the error is dropped and
the zero ObjectID stands in for it. -/
def ObjectIDFromHexOrNil (s : String) : ObjectID :=
  match ObjectIDFromHex s with
  | .ok id => id
  | .error _ => NilObjectID

/-! ## The entities -/

/-- The Go struct `Meeting`. -/
structure Meeting where
  ID : ObjectID
  Title : String
  Participants : List String
  StartTime : String
  EndTime : String
  CreationTimestap : String
deriving DecidableEq, Repr

/-- The Go struct `People`. -/
structure People where
  Name : String
  Email : String
  RSVP : String
deriving DecidableEq, Repr

/-- The value of `var meeting Meeting`. -/
def Meeting.zero : Meeting := ⟨NilObjectID, "", [], "", "", ""⟩

/-! ## encoding/json, as far as `Decode(&meeting)` goes -/

/-- A parsed JSON value. -/
inductive JSON where
  | null
  | bool (b : Bool)
  | num (n : Int)
  | str (s : String)
  | arr (xs : List JSON)
  | obj (kvs : List (String × JSON))

/-- The exported fields of `Meeting`; none carries a `json` tag, so each is matched
by its Go name. -/
inductive Field where
  | ID | Title | Participants | StartTime | EndTime | CreationTimestap
deriving DecidableEq, Repr

/-- Simple case folding of one rune, on the orbits that hold an ASCII letter. -/
def foldRune (c : Char) : Char :=
  if c = Char.ofNat 0x212A then 'k'
  else if c = Char.ofNat 0x017F then 's'
  else c.toLower

/-- Folded form of an object key or of a field name. -/
def foldName (s : String) : List Char := s.data.map foldRune

/-- Field names of `Meeting` in declaration order. -/
def fieldNames : List (String × Field) :=
  [("ID", .ID), ("Title", .Title), ("Participants", .Participants),
   ("StartTime", .StartTime), ("EndTime", .EndTime),
   ("CreationTimestap", .CreationTimestap)]

/-- The field an object key is stored into: the one whose name equals the key up to
case folding; a key that matches no field is skipped by the decoder. -/
def lookupField (key : String) : Option Field :=
  (fieldNames.find? (fun nf => decide (foldName nf.1 = foldName key))).map (fun nf => nf.2)

/-- Decoding into a `string` field: a string is stored, `null` leaves the field as it
is, any other value leaves it as it is and reports a type error. -/
def decodeString (field : String) (old : String) : JSON → String × Option String
  | .str s => (s, none)
  | .null => (old, none)
  | _ => (old, some ("json: cannot unmarshal value into Go struct field Meeting." ++ field
      ++ " of type string"))

/-- Decoding one array element into a fresh `string` slot. -/
def decodeElem : JSON → String × Option String
  | .str s => (s, none)
  | .null => ("", none)
  | _ => ("", some
      "json: cannot unmarshal value into Go struct field Meeting.Participants of type string")

/-- First error of two, in order. -/
def firstError (a b : Option String) : Option String :=
  match a with
  | some e => some e
  | none => b

/-- Decoding the elements of an array into a `[]string`, one slot per element; the
first type error is kept and decoding goes on. -/
def decodeElems : List JSON → List String × Option String
  | [] => ([], none)
  | x :: xs =>
    let r := decodeElem x
    let rs := decodeElems xs
    (r.1 :: rs.1, firstError r.2 rs.2)

/-- Decoding into the `[]string` field. -/
def decodeStrings (old : List String) : JSON → List String × Option String
  | .arr xs => decodeElems xs
  | .null => ([], none)
  | _ => (old, some
      "json: cannot unmarshal value into Go struct field Meeting.Participants of type []string")

/-- Text of an ObjectID inside JSON: empty for the zero ObjectID, else 24 hexadecimal
digits. -/
def ObjectID.fromJSONString (s : String) : Except String ObjectID :=
  if s.utf8ByteSize = 0 then .ok NilObjectID
  else if s.utf8ByteSize ≠ 24 then
    .error "cannot unmarshal into an ObjectID, the length must be 24"
  else
    match hexDecode s.data 0 with
    | none => .error "encoding/hex: invalid byte"
    | some n => .ok ⟨n⟩

/-- Last value stored under a key of a JSON object. -/
def lookupLast (key : String) (kvs : List (String × JSON)) : Option JSON :=
  (kvs.reverse.find? (fun kv => decide (kv.1 = key))).map (fun kv => kv.2)

/-- The UTF-8 bytes of one rune. -/
def utf8Bytes (c : Char) : List Nat :=
  let n := c.toNat
  if n < 0x80 then [n]
  else if n < 0x800 then [0xC0 + n / 64, 0x80 + n % 64]
  else if n < 0x10000 then [0xE0 + n / 4096, 0x80 + n / 64 % 64, 0x80 + n % 64]
  else [0xF0 + n / 262144, 0x80 + n / 4096 % 64, 0x80 + n / 64 % 64, 0x80 + n % 64]

/-- Big-endian value of a run of bytes. -/
def bytesValue : List Nat → Nat → Nat
  | [], acc => acc
  | b :: bs, acc => bytesValue bs (acc * 256 + b)

/-- A rune that a JSON string can hold only as an escape sequence: the quote, the
backslash and the control characters. -/
def needsEscape (c : Char) : Bool :=
  decide (c = Char.ofNat 0x22) || decide (c = Char.ofNat 0x5C) || decide (c.toNat < 0x20)

/-- The token of a JSON string written without escape sequences: its bytes between two
quotes. -/
def stringToken (s : String) : List Nat :=
  0x22 :: (s.data.flatMap utf8Bytes ++ [0x22])

/-- Method `UnmarshalJSON` of `primitive.ObjectID`, on parsed values.  `null` leaves the
ObjectID as it is.  A token of exactly 12 bytes is copied byte for byte: for a string
written without escape sequences that is a string of 10 bytes, quotes included in the
copy.  Any other string, or an object holding a string under `$oid`, is read as
hexadecimal text; everything else is an error.  (The length of the token of a number,
of an object or of a string written with optional escapes is not fixed by the parsed
value; such tokens are taken not to be 12 bytes long.) -/
def ObjectID.UnmarshalJSON (old : ObjectID) : JSON → Except String ObjectID
  | .null => .ok old
  | .str s =>
    if s.utf8ByteSize = 10 ∧ s.data.all (fun c => !needsEscape c) then
      .ok ⟨bytesValue (stringToken s) 0⟩
    else ObjectID.fromJSONString s
  | .obj kvs =>
    match lookupLast "$oid" kvs with
    | some (.str s) => ObjectID.fromJSONString s
    | _ => .error "not an extended JSON ObjectID"
  | _ => .error "not an extended JSON ObjectID"

/-- Decoding the members of a JSON object into `meeting`, in order.  A type error on a
plain field is saved (the first one wins) and decoding goes on; an error of
`UnmarshalJSON` stops decoding at once and is the error returned. -/
def decodeObject : List (String × JSON) → Meeting → Option String → Meeting × Option String
  | [], m, e => (m, e)
  | (k, v) :: rest, m, e =>
    match lookupField k with
    | none => decodeObject rest m e
    | some .ID =>
      match ObjectID.UnmarshalJSON m.ID v with
      | .error err => (m, some err)
      | .ok id => decodeObject rest { m with ID := id } e
    | some .Title =>
      let r := decodeString "Title" m.Title v
      decodeObject rest { m with Title := r.1 } (firstError e r.2)
    | some .Participants =>
      let r := decodeStrings m.Participants v
      decodeObject rest { m with Participants := r.1 } (firstError e r.2)
    | some .StartTime =>
      let r := decodeString "StartTime" m.StartTime v
      decodeObject rest { m with StartTime := r.1 } (firstError e r.2)
    | some .EndTime =>
      let r := decodeString "EndTime" m.EndTime v
      decodeObject rest { m with EndTime := r.1 } (firstError e r.2)
    | some .CreationTimestap =>
      let r := decodeString "CreationTimestap" m.CreationTimestap v
      decodeObject rest { m with CreationTimestap := r.1 } (firstError e r.2)

/-- The call `json.NewDecoder(request.Body).Decode(&meeting)` on a fresh `meeting`:
the value left in `meeting` and the error returned.  The body is `none` when the
decoder finds no well-formed JSON value in it. -/
def Decode : Option JSON → Meeting × Option String
  | none => (Meeting.zero, some "invalid character looking for beginning of value")
  | some .null => (Meeting.zero, none)
  | some (.obj kvs) => decodeObject kvs Meeting.zero none
  | some _ => (Meeting.zero, some "json: cannot unmarshal value into Go value of type main.Meeting")

/-! ## bson and the collection -/

/-- A BSON document with the keys of the `bson` tags of `Meeting`. -/
structure BDoc where
  _id : Option ObjectID
  title : Option String
  participants : Option (List String)
  starttime : Option String
  endtime : Option String
  timestamp : Option String
deriving DecidableEq, Repr

/-- A stored document of the `meeting` collection. -/
structure Doc where
  _id : ObjectID
  title : Option String
  participants : Option (List String)
  starttime : Option String
  endtime : Option String
  timestamp : Option String
deriving DecidableEq, Repr

/-- The `omitempty` rule on a string. -/
def omitEmpty (s : String) : Option String := if s = "" then none else some s

/-- Marshalling a `Meeting` under its `bson` tags: every field is `omitempty`. -/
def Meeting.toBSON (m : Meeting) : BDoc :=
  { _id := if m.ID.IsZero then none else some m.ID
    title := omitEmpty m.Title
    participants := if m.Participants.isEmpty then none else some m.Participants
    starttime := omitEmpty m.StartTime
    endtime := omitEmpty m.EndTime
    timestamp := omitEmpty m.CreationTimestap }

/-- Unmarshalling a stored document into a fresh `Meeting`: an absent key leaves the
zero value. -/
def Doc.toMeeting (d : Doc) : Meeting :=
  { ID := d._id
    Title := d.title.getD ""
    Participants := d.participants.getD []
    StartTime := d.starttime.getD ""
    EndTime := d.endtime.getD ""
    CreationTimestap := d.timestamp.getD "" }

/-- The struct `mongo.InsertOneResult`. -/
structure InsertOneResult where
  InsertedID : ObjectID
deriving DecidableEq, Repr

/-- The struct `mongo.UpdateResult` (no upsert is ever requested). -/
structure UpdateResult where
  MatchedCount : Nat
  ModifiedCount : Nat
  UpsertedCount : Nat
deriving DecidableEq, Repr

/-- The struct `mongo.DeleteResult`. -/
structure DeleteResult where
  DeletedCount : Nat
deriving DecidableEq, Repr

/-- What the backend does on one request, beyond the stored data: the error it raises
on the collection call, the error and the number of delivered documents when the
cursor breaks, and the ObjectID the driver generates for a document without `_id`. -/
structure Backend where
  fault : Option String
  cursorFault : Option (Nat × String)
  newID : ObjectID

/-- The document stored for `b` under `id`. -/
def BDoc.store (b : BDoc) (id : ObjectID) : Doc :=
  ⟨id, b.title, b.participants, b.starttime, b.endtime, b.timestamp⟩

/-- The collection call `InsertOne`: the driver adds a generated `_id` when the
document has none; `_id` is unique in a collection. -/
def InsertOne (be : Backend) (c : List Doc) (b : BDoc) :
    Except String (InsertOneResult × List Doc) :=
  match be.fault with
  | some e => .error e
  | none =>
    let id := b._id.getD be.newID
    if c.any (fun d => decide (d._id = id)) then .error "E11000 duplicate key error"
    else .ok (⟨id⟩, c ++ [b.store id])

/-- The collection call `Find` with the empty filter `bson.M{}`: a cursor over every
document. -/
def Find (be : Backend) (c : List Doc) : Except String (List Doc) :=
  match be.fault with
  | some e => .error e
  | none => .ok c

/-- The cursor call `All`: the decoded documents and the error returned; a cursor that
breaks has delivered some of the documents. -/
def All (be : Backend) (cursor : List Doc) : List Meeting × Option String :=
  match be.cursorFault with
  | none => (cursor.map Doc.toMeeting, none)
  | some (n, e) => ((cursor.take n).map Doc.toMeeting, some e)

/-- Effect of `$set` on one document: the keys present in the update replace the
stored ones. -/
def applySet (s : BDoc) (d : Doc) : Doc :=
  { _id := d._id
    title := s.title.orElse (fun _ => d.title)
    participants := s.participants.orElse (fun _ => d.participants)
    starttime := s.starttime.orElse (fun _ => d.starttime)
    endtime := s.endtime.orElse (fun _ => d.endtime)
    timestamp := s.timestamp.orElse (fun _ => d.timestamp) }

/-- Replacing the first document stored under `id`. -/
def replaceFirst (id : ObjectID) (f : Doc → Doc) : List Doc → List Doc
  | [] => []
  | d :: ds => if d._id = id then f d :: ds else d :: replaceFirst id f ds

/-- Removing the first document stored under `id`. -/
def removeFirst (id : ObjectID) : List Doc → List Doc
  | [] => []
  | d :: ds => if d._id = id then ds else d :: removeFirst id ds

/-- The collection call `UpdateOne` with filter `_id = id` and update `$set: s`.  The
key `_id` of a stored document cannot be given another value. -/
def UpdateOne (be : Backend) (c : List Doc) (id : ObjectID) (s : BDoc) :
    Except String (UpdateResult × List Doc) :=
  match be.fault with
  | some e => .error e
  | none =>
    match c.find? (fun d => decide (d._id = id)) with
    | none => .ok (⟨0, 0, 0⟩, c)
    | some d =>
      if s._id.isSome ∧ s._id ≠ some d._id then
        .error "Performing an update on the path _id would modify the immutable field _id"
      else .ok (⟨1, if applySet s d = d then 0 else 1, 0⟩, replaceFirst id (applySet s) c)

/-- The collection call `DeleteOne` with filter `_id = id`. -/
def DeleteOne (be : Backend) (c : List Doc) (id : ObjectID) :
    Except String (DeleteResult × List Doc) :=
  match be.fault with
  | some e => .error e
  | none =>
    if c.any (fun d => decide (d._id = id)) then .ok (⟨1⟩, removeFirst id c)
    else .ok (⟨0⟩, c)

/-! ## The handlers -/

/-- The Go struct `Connection`: the two collections. -/
structure Connection where
  Meeting : List Doc
  People : List People
deriving DecidableEq, Repr

/-- What a handler reads of `*http.Request`: the route variables of `mux.Vars`, the
URL query and the body. -/
structure Request where
  vars : List (String × String)
  query : List (String × String)
  body : Option JSON

/-- The value a handler encodes into the response. -/
inductive Payload where
  | message (err : String)
  | insertOneResult (r : InsertOneResult)
  | meetings (ms : List Meeting)
  | updateResult (r : UpdateResult)
  | deleteResult (r : DeleteResult)
deriving DecidableEq, Repr

/-- What a handler writes: the status (200 when the handler writes a body without
`WriteHeader`), the `content-type` header and the encoded value. -/
structure Response where
  status : Nat
  contentType : String
  body : Payload
deriving DecidableEq, Repr

/-- The constant `http.StatusInternalServerError`. -/
def StatusInternalServerError : Nat := 500

/-- The constant `http.StatusOK`. -/
def StatusOK : Nat := 200

/-- The error branch shared by the handlers: `WriteHeader(500)` and the message. -/
def errorResponse (err : String) : Response :=
  ⟨StatusInternalServerError, "application/json", .message err⟩

/-- The success branch shared by the handlers: `json.NewEncoder(response).Encode(v)`
with no `WriteHeader` before it. -/
def encodeResponse (v : Payload) : Response :=
  ⟨StatusOK, "application/json", v⟩

/-- Lookup in a Go `map[string]string`: the zero value for a missing key. -/
def mapGet (m : List (String × String)) (key : String) : String :=
  ((m.find? (fun kv => decide (kv.1 = key))).map (fun kv => kv.2)).getD ""

/-- The handler `CreateMeetingEndpoint`. -/
def CreateMeetingEndpoint (be : Backend) (connection : Connection) (request : Request) :
    Response × Connection :=
  match Decode request.body with
  | (_, some err) => (errorResponse err, connection)
  | (meeting, none) =>
    match InsertOne be connection.Meeting meeting.toBSON with
    | .error err => (errorResponse err, connection)
    | .ok (result, c) => (encodeResponse (.insertOneResult result), { connection with Meeting := c })

/-- The handler `GetMeetingEndpoint`.  Line 82 reads
`if err != cursor.All(ctx, &meeting); err != nil`: the error of `All` is compared with
`err` and dropped, and the test that follows reads the `err` of `Find` again. -/
def GetMeetingEndpoint (be : Backend) (connection : Connection) (_request : Request) :
    Response × Connection :=
  match Find be connection.Meeting with
  | .error err => (errorResponse err, connection)
  | .ok cursor =>
    let err : Option String := none
    let r := All be cursor
    let meeting := r.1
    let _compared := decide (err ≠ r.2)
    match err with
    | some e => (errorResponse e, connection)
    | none => (encodeResponse (.meetings meeting), connection)

/-- The handler `UpdateMeetingEndpoint`: neither the error of `ObjectIDFromHex` nor
the error of `Decode` is looked at. -/
def UpdateMeetingEndpoint (be : Backend) (connection : Connection) (request : Request) :
    Response × Connection :=
  let id := ObjectIDFromHexOrNil (mapGet request.vars "id")
  let meeting := (Decode request.body).1
  match UpdateOne be connection.Meeting id meeting.toBSON with
  | .error err => (errorResponse err, connection)
  | .ok (result, c) => (encodeResponse (.updateResult result), { connection with Meeting := c })

/-- The handler `DeleteMeetingEndpoint`. -/
def DeleteMeetingEndpoint (be : Backend) (connection : Connection) (request : Request) :
    Response × Connection :=
  let id := ObjectIDFromHexOrNil (mapGet request.vars "id")
  match DeleteOne be connection.Meeting id with
  | .error err => (errorResponse err, connection)
  | .ok (result, c) => (encodeResponse (.deleteResult result), { connection with Meeting := c })

/-! ## regexp, as far as `validPath` goes -/

/-- Syntax of the regular expressions that `validPath` is built from. -/
inductive Regexp where
  | beginText
  | endText
  | empty
  | lit (c : Char)
  | cls (ranges : List (Char × Char))
  | cat (a b : Regexp)
  | alt (a b : Regexp)
  | plus (a : Regexp)
  | group (n : Nat) (a : Regexp)

/-- One thread of the matcher: the number of runes consumed since the start of the
text, the runes ahead, and the text captured by each group so far (latest first). -/
structure Thread where
  pos : Nat
  rest : List Char
  caps : List (Nat × List Char)
deriving DecidableEq, Repr

/-- Membership of a rune in a character class given by its ranges. -/
def inClass (ranges : List (Char × Char)) (c : Char) : Bool :=
  ranges.any (fun r => decide (r.1 ≤ c ∧ c ≤ r.2))

/-- Greedy repetition, one or more times: every pass is tried for one more pass before
the thread it ends in is handed on, and a pass that consumed nothing ends the loop. -/
def iterate (step : Thread → List Thread) : Nat → Thread → List Thread
  | 0, _ => []
  | n + 1, t =>
    (step t).flatMap (fun u =>
      (if u.rest.length < t.rest.length then iterate step n u else []) ++ [u])

/-- The threads a regular expression leaves when started on `t`, in the order of
preference of a leftmost-first matcher. -/
def run : Regexp → Thread → List Thread
  | .beginText, t => if t.pos = 0 then [t] else []
  | .endText, t => if t.rest.isEmpty then [t] else []
  | .empty, t => [t]
  | .lit c, t =>
    match t.rest with
    | x :: xs => if x = c then [⟨t.pos + 1, xs, t.caps⟩] else []
    | [] => []
  | .cls ranges, t =>
    match t.rest with
    | x :: xs => if inClass ranges x then [⟨t.pos + 1, xs, t.caps⟩] else []
    | [] => []
  | .cat a b, t => (run a t).flatMap (run b)
  | .alt a b, t => run a t ++ run b t
  | .plus a, t => iterate (run a) (t.rest.length + 1) t
  | .group n a, t =>
    (run a t).map (fun u => { u with caps := (n, t.rest.take (u.pos - t.pos)) :: u.caps })

/-- Leftmost match: the first start position, from `pos` on, at which some thread
survives, with the preferred thread there. -/
def search (re : Regexp) : Nat → List Char → Option (Thread × Thread)
  | pos, [] => (run re ⟨pos, [], []⟩).head?.map (fun u => (⟨pos, [], []⟩, u))
  | pos, x :: xs =>
    match (run re ⟨pos, x :: xs, []⟩).head? with
    | some u => some (⟨pos, x :: xs, []⟩, u)
    | none => search re (pos + 1) xs

/-- Text captured by group `n` in a thread; the empty string for a group that took no
part in the match. -/
def capture (u : Thread) (n : Nat) : String :=
  String.mk (((u.caps.find? (fun c => decide (c.1 = n))).map (fun c => c.2)).getD [])

/-- Method `FindStringSubmatch` of a regular expression with `groups` groups: `none`
for Go's nil, else the matched text followed by the text of each group. -/
def FindStringSubmatch (re : Regexp) (groups : Nat) (s : String) : Option (List String) :=
  (search re 0 s.data).map (fun tu =>
    String.mk (tu.1.rest.take (tu.2.pos - tu.1.pos)) ::
      (List.range groups).map (fun i => capture tu.2 (i + 1)))

/-- The literal text `w` as a regular expression. -/
def Regexp.text : List Char → Regexp
  | [] => .empty
  | [c] => .lit c
  | c :: cs => .cat (.lit c) (Regexp.text cs)

/-- The variable `validPath`: `^/(edit|save|view)/([a-zA-Z0-9]+)$`. -/
def validPath : Regexp :=
  .cat .beginText
    (.cat (.lit '/')
      (.cat (.group 1 (.alt (Regexp.text ['e', 'd', 'i', 't'])
                        (.alt (Regexp.text ['s', 'a', 'v', 'e'])
                          (Regexp.text ['v', 'i', 'e', 'w']))))
        (.cat (.lit '/')
          (.cat (.group 2 (.plus (.cls [('a', 'z'), ('A', 'Z'), ('0', '9')])))
            .endText))))

/-! ## The wiki handlers -/

/-- What the handler returned by `makeHandler` does with a request: it answers
`http.NotFound`, or it calls `fn` and the request is served by that call. -/
inductive Served (α : Type) where
  | NotFound
  | called (result : α)
deriving DecidableEq, Repr

/-- The status `http.NotFound` answers with. -/
def StatusNotFound : Nat := 404

/-- Status written by `makeHandler` itself, if any. -/
def Served.ownStatus {α : Type} : Served α → Option Nat
  | .NotFound => some StatusNotFound
  | .called _ => none

/-- The function `makeHandler`, applied to the request path `r.URL.Path`; `fn` is
given the title. -/
def makeHandler {α : Type} (fn : String → α) (path : String) : Served α :=
  match FindStringSubmatch validPath 2 path with
  | none => .NotFound
  | some m => .called (fn (m.getD 2 ""))

/-- The file name computed by `loadPage` and by `save`. -/
def filename (title : String) : String := title ++ ".txt"

/-! ## Vocabulary of the specification -/

/-- An ASCII letter or digit. -/
def isAlnum (c : Char) : Prop :=
  ('a' ≤ c ∧ c ≤ 'z') ∨ ('A' ≤ c ∧ c ≤ 'Z') ∨ ('0' ≤ c ∧ c ≤ '9')

/-- A non-empty string of ASCII letters and digits only. -/
def validTitle (T : String) : Prop := T.data ≠ [] ∧ ∀ c ∈ T.data, isAlnum c

/-- The path `/action/T`. -/
def wikiPath (action T : String) : String := "/" ++ action ++ "/" ++ T

/-- The three actions of the wiki. -/
def wikiActions : List String := ["edit", "save", "view"]

/-- The runes of one of the three actions. -/
def isAction (a : List Char) : Prop :=
  a = ['e', 'd', 'i', 't'] ∨ a = ['s', 'a', 'v', 'e'] ∨ a = ['v', 'i', 'e', 'w']

/-- A query parameter of the request, if present. -/
def queryParam (request : Request) (key : String) : Option String :=
  (request.query.find? (fun kv => decide (kv.1 = key))).map (fun kv => kv.2)

/-- The window rule of the specification: `meeting.start ≤ end` and
`meeting.end ≥ start`, an absent bound asking nothing.  Times are compared as text,
rune by rune. -/
def specWindow (start stop : Option String) (m : Meeting) : Bool :=
  (match stop with
    | none => true
    | some e => decide (m.StartTime.data ≤ e.data)) &&
  (match start with
    | none => true
    | some s => decide (s.data ≤ m.EndTime.data))

/-- The participant rule of the specification: some participant equals the given email
up to letter case. -/
def specParticipant (email : Option String) (m : Meeting) : Bool :=
  match email with
  | none => true
  | some e => m.Participants.any (fun p => decide (p.data.map Char.toLower = e.data.map Char.toLower))

/-- The filter of the specification, built from the query parameters `start`, `end` and
`participant`. -/
def specFilter (request : Request) (m : Meeting) : Bool :=
  specWindow (queryParam request "start") (queryParam request "end") m &&
    specParticipant (queryParam request "participant") m

/-- The order of the specification: by `start_time`, ties broken by `id`. -/
def specOrder (a b : Meeting) : Prop :=
  a.StartTime.data < b.StartTime.data ∨ (a.StartTime = b.StartTime ∧ a.ID.val ≤ b.ID.val)

instance specOrderDecidable : DecidableRel specOrder :=
  fun a b => by unfold specOrder; exact inferInstance

/-- The listing the specification asks of `GET /meetings`: the stored meetings that
pass the filter, in the order of the specification. -/
def specListing (request : Request) (S : List Meeting) : List Meeting :=
  (S.filter (specFilter request)).insertionSort specOrder

/-- A participant email that carries rsvp = yes.  A stored meeting holds its
participants as plain strings (`Participants []string`); the one place where the data
model keeps an rsvp is the field `RSVP` of `People`, next to `Email`, in the `people`
collection. -/
def rsvpYes (people : List People) (email : String) : Prop :=
  ∃ q, q ∈ people ∧ q.Email = email ∧ q.RSVP = "yes"

/-- The state the invariant of the specification rules out: two distinct stored meetings
with the same start time and a common participant email that carries rsvp = yes. -/
def rsvpConflict (connection : Connection) : Prop :=
  ∃ a b, a ∈ connection.Meeting ∧ b ∈ connection.Meeting ∧ a ≠ b ∧
    a.starttime = b.starttime ∧
    ∃ email, email ∈ a.participants.getD [] ∧ email ∈ b.participants.getD [] ∧
      rsvpYes connection.People email

/-- One request to a handler that writes, with what the backend does on it. -/
inductive Call where
  | create (be : Backend) (request : Request)
  | update (be : Backend) (request : Request)

/-- The collections after one request. -/
def Call.apply : Call → Connection → Connection
  | .create be request, connection => (CreateMeetingEndpoint be connection request).2
  | .update be request, connection => (UpdateMeetingEndpoint be connection request).2

/-- The collections after a sequence of requests. -/
def runCalls (calls : List Call) (connection : Connection) : Connection :=
  calls.foldl (fun c call => call.apply c) connection

/-- A JSON object without the members that are decoded into the field `ID`. -/
def withoutID (kvs : List (String × JSON)) : List (String × JSON) :=
  kvs.filter (fun kv => decide (lookupField kv.1 ≠ some Field.ID))

/-! # Properties of the meeting handlers -/

/-! ## Facts on the collection calls -/

theorem omitEmpty_getD (s : String) : (omitEmpty s).getD "" = s := by
  unfold omitEmpty
  split <;> simp_all

theorem store_toMeeting (m : Meeting) (id : ObjectID) :
    (m.toBSON.store id).toMeeting = { m with ID := id } := by
  cases m with
  | mk i t ps st en ts =>
    simp only [Meeting.toBSON, BDoc.store, Doc.toMeeting, omitEmpty_getD]
    cases ps <;> simp

theorem any_id_false {c : List Doc} {id : ObjectID} (h : ∀ d ∈ c, d._id ≠ id) :
    c.any (fun d => decide (d._id = id)) = false := by
  simp only [List.any_eq_false, decide_eq_true_eq]
  exact h

theorem find_id_none {c : List Doc} {id : ObjectID} (h : ∀ d ∈ c, d._id ≠ id) :
    c.find? (fun d => decide (d._id = id)) = none := by
  simp only [List.find?_eq_none, decide_eq_true_eq]
  exact h

theorem find_id_split (pre post : List Doc) (M : Doc) (h : ∀ d ∈ pre, d._id ≠ M._id) :
    (pre ++ M :: post).find? (fun d => decide (d._id = M._id)) = some M := by
  induction pre with
  | nil => simp
  | cons d ds ih =>
    have hd : d._id ≠ M._id := h d (List.mem_cons_self _ _)
    have hds : ∀ x ∈ ds, x._id ≠ M._id := fun x hx => h x (List.mem_cons_of_mem _ hx)
    simp [List.find?_cons, hd, ih hds]

theorem replaceFirst_split (pre post : List Doc) (M : Doc) (f : Doc → Doc)
    (h : ∀ d ∈ pre, d._id ≠ M._id) :
    replaceFirst M._id f (pre ++ M :: post) = pre ++ f M :: post := by
  induction pre with
  | nil => simp [replaceFirst]
  | cons d ds ih =>
    have hd : d._id ≠ M._id := h d (List.mem_cons_self _ _)
    have hds : ∀ x ∈ ds, x._id ≠ M._id := fun x hx => h x (List.mem_cons_of_mem _ hx)
    simp [replaceFirst, hd, ih hds]

theorem InsertOne_fresh (be : Backend) (c : List Doc) (m : Meeting)
    (hid : m.ID = NilObjectID) (hf : be.fault = none) (hfresh : ∀ d ∈ c, d._id ≠ be.newID) :
    InsertOne be c m.toBSON = .ok (⟨be.newID⟩, c ++ [m.toBSON.store be.newID]) := by
  unfold InsertOne
  rw [hf]
  have h0 : m.toBSON._id = none := by simp [Meeting.toBSON, ObjectID.IsZero, hid]
  simp only [h0, Option.getD_none, any_id_false hfresh]
  rfl

theorem create_of_decode_ok (be : Backend) (connection : Connection) (request : Request)
    (m : Meeting) (hd : Decode request.body = (m, none)) :
    CreateMeetingEndpoint be connection request =
      match InsertOne be connection.Meeting m.toBSON with
      | .error err => (errorResponse err, connection)
      | .ok (result, c) =>
        (encodeResponse (.insertOneResult result), { connection with Meeting := c }) := by
  unfold CreateMeetingEndpoint
  rw [hd]

theorem get_of_find_ok (be : Backend) (connection : Connection) (request : Request)
    (hf : be.fault = none) :
    GetMeetingEndpoint be connection request =
      (⟨200, "application/json", .meetings (All be connection.Meeting).1⟩, connection) := by
  simp [GetMeetingEndpoint, Find, hf, encodeResponse, StatusOK]

/-! ## Create -/

/-- C1 (amended): a body that fails to decode, because it is not valid JSON or because a
value has the wrong JSON type for its field, is answered with status 500 and the text
of the error, and both collections are left as they were. -/
theorem CreateMeetingEndpoint_decode_error (be : Backend) (connection : Connection)
    (request : Request) (err : String) (h : (Decode request.body).2 = some err) :
    CreateMeetingEndpoint be connection request =
      (⟨500, "application/json", .message err⟩, connection) := by
  unfold CreateMeetingEndpoint
  rcases hd : Decode request.body with ⟨m, e⟩
  rw [hd] at h
  simp only at h
  subst h
  rfl

/-- C1, witness: a body that is not valid JSON, on an empty store. -/
theorem CreateMeetingEndpoint_decode_error_witness :
    (Decode (⟨[], [], none⟩ : Request).body).2
        = some "invalid character looking for beginning of value" ∧
      CreateMeetingEndpoint ⟨none, none, ⟨1⟩⟩ ⟨[], []⟩ ⟨[], [], none⟩ =
        (⟨500, "application/json",
          .message "invalid character looking for beginning of value"⟩, ⟨[], []⟩) :=
  ⟨rfl, CreateMeetingEndpoint_decode_error ⟨none, none, ⟨1⟩⟩ ⟨[], []⟩ ⟨[], [], none⟩ _ rfl⟩

/-- C1, counterexample: a body that is not valid JSON is answered with 500, not 400; a
body with an empty title, an empty participants list and no start or end time is not
rejected at all: it is answered with 200 and an empty document is stored. -/
theorem CreateMeetingEndpoint_rejects_400_counterexample :
    (CreateMeetingEndpoint ⟨none, none, ⟨1⟩⟩ ⟨[], []⟩ ⟨[], [], none⟩).1.status = 500 ∧
    CreateMeetingEndpoint ⟨none, none, ⟨1⟩⟩ ⟨[], []⟩
        ⟨[], [], some (.obj [("Title", .str ""), ("Participants", .arr [])])⟩ =
      (⟨200, "application/json", .insertOneResult ⟨⟨1⟩⟩⟩,
        ⟨[⟨⟨1⟩, none, none, none, none, none⟩], []⟩) := by
  decide

/-- C2 (amended): when the body decodes and the insert succeeds, the answer has status 200
and carries the `InsertOneResult`, not the meeting; the stored document is the
decoded meeting under the inserted id, which is the id of the body when that is not
zero and the id generated by the driver otherwise. -/
theorem CreateMeetingEndpoint_success (be : Backend) (connection : Connection)
    (request : Request) (m : Meeting) (r : InsertOneResult) (c : List Doc)
    (hd : Decode request.body = (m, none))
    (hi : InsertOne be connection.Meeting m.toBSON = .ok (r, c)) :
    CreateMeetingEndpoint be connection request =
        (⟨200, "application/json", .insertOneResult r⟩, { connection with Meeting := c }) ∧
      c = connection.Meeting ++ [m.toBSON.store r.InsertedID] ∧
      r.InsertedID = (if m.ID = NilObjectID then be.newID else m.ID) := by
  refine ⟨?_, ?_⟩
  · unfold CreateMeetingEndpoint
    rw [hd]
    simp only [hi]
    rfl
  · unfold InsertOne at hi
    split at hi
    · cases hi
    · dsimp only at hi
      split at hi
      · cases hi
      · cases hi
        refine ⟨rfl, ?_⟩
        by_cases hz : m.ID = NilObjectID <;> simp [Meeting.toBSON, ObjectID.IsZero, hz]

/-- C2, witness: the meeting of scenario S1 in the keys the decoder knows, on an empty
store. -/
theorem CreateMeetingEndpoint_success_witness :
    CreateMeetingEndpoint ⟨none, none, ⟨7⟩⟩ ⟨[], []⟩
        ⟨[], [], some (.obj [("Title", .str "Sync"), ("Participants", .arr [.str "a@x"]),
          ("StartTime", .str "2024-01-01T09:00Z"), ("EndTime", .str "2024-01-01T10:00Z")])⟩ =
        (⟨200, "application/json", .insertOneResult ⟨⟨7⟩⟩⟩,
          { (⟨[], []⟩ : Connection) with
            Meeting := [⟨⟨7⟩, some "Sync", some ["a@x"], some "2024-01-01T09:00Z",
              some "2024-01-01T10:00Z", none⟩] }) ∧
      [⟨⟨7⟩, some "Sync", some ["a@x"], some "2024-01-01T09:00Z",
          some "2024-01-01T10:00Z", none⟩] =
        (⟨[], []⟩ : Connection).Meeting ++
          [(⟨NilObjectID, "Sync", ["a@x"], "2024-01-01T09:00Z", "2024-01-01T10:00Z", ""⟩ :
            Meeting).toBSON.store (⟨⟨7⟩⟩ : InsertOneResult).InsertedID] ∧
      (⟨⟨7⟩⟩ : InsertOneResult).InsertedID =
        (if (⟨NilObjectID, "Sync", ["a@x"], "2024-01-01T09:00Z", "2024-01-01T10:00Z", ""⟩ :
            Meeting).ID = NilObjectID then (⟨none, none, ⟨7⟩⟩ : Backend).newID
          else (⟨NilObjectID, "Sync", ["a@x"], "2024-01-01T09:00Z", "2024-01-01T10:00Z", ""⟩ :
            Meeting).ID) :=
  CreateMeetingEndpoint_success ⟨none, none, ⟨7⟩⟩ ⟨[], []⟩ _
    ⟨NilObjectID, "Sync", ["a@x"], "2024-01-01T09:00Z", "2024-01-01T10:00Z", ""⟩ ⟨⟨7⟩⟩ _
    (by decide) rfl

/-- C2, counterexample: a body that decodes, with an insert that succeeds, is answered
with status 200, not 201, and the body of the answer is the `InsertOneResult`. -/
theorem CreateMeetingEndpoint_201_counterexample :
    (CreateMeetingEndpoint ⟨none, none, ⟨7⟩⟩ ⟨[], []⟩
        ⟨[], [], some (.obj [("Title", .str "Sync"), ("Participants", .arr [.str "a@x"]),
          ("StartTime", .str "2024-01-01T09:00Z"),
          ("EndTime", .str "2024-01-01T10:00Z")])⟩).1 =
      ⟨200, "application/json", .insertOneResult ⟨⟨7⟩⟩⟩ := by
  decide

/-! ## List -/

/-- C4 (amended): the query parameters are not read.  When neither `Find` nor the cursor
raises an error, the answer has status 200 and lists every stored meeting, in stored
order. -/
theorem GetMeetingEndpoint_lists_all (be : Backend) (connection : Connection)
    (request : Request) (hf : be.fault = none) (hc : be.cursorFault = none) :
    GetMeetingEndpoint be connection request =
      (⟨200, "application/json", .meetings (connection.Meeting.map Doc.toMeeting)⟩,
        connection) := by
  rw [get_of_find_ok be connection request hf]
  simp [All, hc]

/-- C4, witness: the two meetings of scenario S2 under the window of S2. -/
theorem GetMeetingEndpoint_lists_all_witness :
    (⟨none, none, ⟨9⟩⟩ : Backend).fault = none ∧
    (⟨none, none, ⟨9⟩⟩ : Backend).cursorFault = none ∧
    GetMeetingEndpoint ⟨none, none, ⟨9⟩⟩
        ⟨[⟨⟨1⟩, some "M1", some ["a@x"], some "2024-01-01T09:00Z", some "2024-01-01T10:00Z",
            none⟩,
          ⟨⟨2⟩, some "M2", some ["b@x"], some "2024-01-01T11:00Z", some "2024-01-01T12:00Z",
            none⟩], []⟩
        ⟨[], [("start", "2024-01-01T10:30Z"), ("end", "2024-01-01T11:30Z")], none⟩ =
      (⟨200, "application/json",
        .meetings [⟨⟨1⟩, "M1", ["a@x"], "2024-01-01T09:00Z", "2024-01-01T10:00Z", ""⟩,
          ⟨⟨2⟩, "M2", ["b@x"], "2024-01-01T11:00Z", "2024-01-01T12:00Z", ""⟩]⟩,
        ⟨[⟨⟨1⟩, some "M1", some ["a@x"], some "2024-01-01T09:00Z", some "2024-01-01T10:00Z",
            none⟩,
          ⟨⟨2⟩, some "M2", some ["b@x"], some "2024-01-01T11:00Z", some "2024-01-01T12:00Z",
            none⟩], []⟩) :=
  ⟨rfl, rfl, GetMeetingEndpoint_lists_all ⟨none, none, ⟨9⟩⟩ _ _ rfl rfl⟩

/-- C4, counterexample (scenario S2): with M1 over 09:00-10:00 and M2 over 11:00-12:00
stored and the window 10:30-11:30 asked for, the specification lists M2 alone, and the
handler lists M1 and M2. -/
theorem GetMeetingEndpoint_filter_counterexample :
    specListing ⟨[], [("start", "2024-01-01T10:30Z"), ("end", "2024-01-01T11:30Z")], none⟩
        [⟨⟨1⟩, "M1", ["a@x"], "2024-01-01T09:00Z", "2024-01-01T10:00Z", ""⟩,
          ⟨⟨2⟩, "M2", ["b@x"], "2024-01-01T11:00Z", "2024-01-01T12:00Z", ""⟩] =
      [⟨⟨2⟩, "M2", ["b@x"], "2024-01-01T11:00Z", "2024-01-01T12:00Z", ""⟩] ∧
    (GetMeetingEndpoint ⟨none, none, ⟨9⟩⟩
        ⟨[⟨⟨1⟩, some "M1", some ["a@x"], some "2024-01-01T09:00Z", some "2024-01-01T10:00Z",
            none⟩,
          ⟨⟨2⟩, some "M2", some ["b@x"], some "2024-01-01T11:00Z", some "2024-01-01T12:00Z",
            none⟩], []⟩
        ⟨[], [("start", "2024-01-01T10:30Z"), ("end", "2024-01-01T11:30Z")], none⟩).1.body =
      .meetings [⟨⟨1⟩, "M1", ["a@x"], "2024-01-01T09:00Z", "2024-01-01T10:00Z", ""⟩,
        ⟨⟨2⟩, "M2", ["b@x"], "2024-01-01T11:00Z", "2024-01-01T12:00Z", ""⟩] := by
  decide

/-- C9 (the failing path): when `Find` succeeds and the cursor call `All` fails after
`n` documents, the answer still has status 200 and lists the documents delivered so
far; the error of `All` is never written. -/
theorem GetMeetingEndpoint_cursor_error (be : Backend) (connection : Connection)
    (request : Request) (n : Nat) (err : String) (hf : be.fault = none)
    (hc : be.cursorFault = some (n, err)) :
    GetMeetingEndpoint be connection request =
      (⟨200, "application/json",
        .meetings ((connection.Meeting.take n).map Doc.toMeeting)⟩, connection) := by
  rw [get_of_find_ok be connection request hf]
  simp [All, hc]

/-- C9, witness: one stored meeting, a cursor that breaks before the first document. -/
theorem GetMeetingEndpoint_cursor_error_witness :
    (⟨none, some (0, "connection reset by peer"), ⟨9⟩⟩ : Backend).fault = none ∧
    GetMeetingEndpoint ⟨none, some (0, "connection reset by peer"), ⟨9⟩⟩
        ⟨[⟨⟨1⟩, some "M1", some ["a@x"], some "09:00", some "10:00", none⟩], []⟩
        ⟨[], [], none⟩ =
      (⟨200, "application/json", .meetings []⟩,
        ⟨[⟨⟨1⟩, some "M1", some ["a@x"], some "09:00", some "10:00", none⟩], []⟩) :=
  ⟨rfl, GetMeetingEndpoint_cursor_error ⟨none, some (0, "connection reset by peer"), ⟨9⟩⟩ _ _
    0 "connection reset by peer" rfl rfl⟩

/-- The checks that are in place: an error raised by `InsertOne`, `Find`, `UpdateOne` or
`DeleteOne` is answered with status 500 and the text of the error, and both collections
are left as they were. -/
theorem store_fault_answers_500 (be : Backend) (connection : Connection) (request : Request)
    (err : String) (hf : be.fault = some err) :
    ((Decode request.body).2 = none →
        CreateMeetingEndpoint be connection request =
          (⟨500, "application/json", .message err⟩, connection)) ∧
      GetMeetingEndpoint be connection request =
        (⟨500, "application/json", .message err⟩, connection) ∧
      UpdateMeetingEndpoint be connection request =
        (⟨500, "application/json", .message err⟩, connection) ∧
      DeleteMeetingEndpoint be connection request =
        (⟨500, "application/json", .message err⟩, connection) := by
  refine ⟨?_, ?_, ?_, ?_⟩
  · intro hd
    rw [create_of_decode_ok be connection request (Decode request.body).1
      (Prod.ext rfl hd)]
    simp [InsertOne, hf, errorResponse, StatusInternalServerError]
  · simp [GetMeetingEndpoint, Find, hf, errorResponse, StatusInternalServerError]
  · simp [UpdateMeetingEndpoint, UpdateOne, hf, errorResponse, StatusInternalServerError]
  · simp [DeleteMeetingEndpoint, DeleteOne, hf, errorResponse, StatusInternalServerError]

/-! ## Create, then list -/

/-- C3 (amended): round trip in the keys the decoder knows.  For a body that decodes to a
meeting `m` without id and with at least one participant, on a store where the
generated id is not taken and `InsertOne` raises no error, the create is answered with
200 and stores `m` under the generated id; a listing that raises no error then ends
with a meeting equal to `m` in every field but `ID`, which is the generated id.
`CreationTimestap` is the value of the body: the server assigns none.  (An empty
participants list would be stored as an absent key and listed as a nil slice.) -/
theorem create_then_list_round_trip (be be2 : Backend) (connection : Connection)
    (request listing : Request) (m : Meeting)
    (hd : Decode request.body = (m, none)) (hid : m.ID = NilObjectID)
    (hp : m.Participants ≠ [])
    (hf : be.fault = none) (hfresh : ∀ d ∈ connection.Meeting, d._id ≠ be.newID)
    (hf2 : be2.fault = none) (hc2 : be2.cursorFault = none) :
    CreateMeetingEndpoint be connection request =
        (⟨200, "application/json", .insertOneResult ⟨be.newID⟩⟩,
          { connection with
            Meeting := connection.Meeting ++
              [⟨be.newID, omitEmpty m.Title, some m.Participants, omitEmpty m.StartTime,
                omitEmpty m.EndTime, omitEmpty m.CreationTimestap⟩] }) ∧
      (GetMeetingEndpoint be2 (CreateMeetingEndpoint be connection request).2 listing).1 =
        ⟨200, "application/json",
          .meetings (connection.Meeting.map Doc.toMeeting ++ [{ m with ID := be.newID }])⟩ := by
  have hi := InsertOne_fresh be connection.Meeting m hid hf hfresh
  have hc : CreateMeetingEndpoint be connection request =
      (⟨200, "application/json", .insertOneResult ⟨be.newID⟩⟩,
        { connection with Meeting := connection.Meeting ++ [m.toBSON.store be.newID] }) := by
    rw [create_of_decode_ok be connection request m hd, hi]
    rfl
  have hs : m.toBSON.store be.newID =
      ⟨be.newID, omitEmpty m.Title, some m.Participants, omitEmpty m.StartTime,
        omitEmpty m.EndTime, omitEmpty m.CreationTimestap⟩ := by
    cases hps : m.Participants with
    | nil => exact absurd hps hp
    | cons p ps => simp [Meeting.toBSON, BDoc.store, hps]
  refine ⟨?_, ?_⟩
  · rw [hc, hs]
  · rw [hc, get_of_find_ok be2 _ listing hf2]
    simp [All, hc2, store_toMeeting]

/-- C3, witness: the meeting of scenario S1 in the keys the decoder knows, with its
participant as a string, on an empty store. -/
theorem create_then_list_round_trip_witness :
    (GetMeetingEndpoint ⟨none, none, ⟨8⟩⟩
        (CreateMeetingEndpoint ⟨none, none, ⟨7⟩⟩ ⟨[], []⟩
          ⟨[], [], some (.obj [("title", .str "Sync"), ("participants", .arr [.str "a@x"]),
            ("starttime", .str "2024-01-01T09:00Z"),
            ("endtime", .str "2024-01-01T10:00Z")])⟩).2 ⟨[], [], none⟩).1 =
      ⟨200, "application/json",
        .meetings [⟨⟨7⟩, "Sync", ["a@x"], "2024-01-01T09:00Z", "2024-01-01T10:00Z", ""⟩]⟩ :=
  (create_then_list_round_trip ⟨none, none, ⟨7⟩⟩ ⟨none, none, ⟨8⟩⟩ ⟨[], []⟩
    ⟨[], [], some (.obj [("title", .str "Sync"), ("participants", .arr [.str "a@x"]),
      ("starttime", .str "2024-01-01T09:00Z"), ("endtime", .str "2024-01-01T10:00Z")])⟩
    ⟨[], [], none⟩
    ⟨NilObjectID, "Sync", ["a@x"], "2024-01-01T09:00Z", "2024-01-01T10:00Z", ""⟩
    (by decide) rfl (by decide) rfl (by simp) rfl rfl).2

/-- C3, counterexample (scenario S1): the meeting of S1 in the external schema, with its
participant as an object and the keys `start_time` and `end_time`, is answered with
500 and nothing is stored, so that the listing that follows is empty. -/
theorem create_then_list_counterexample :
    CreateMeetingEndpoint ⟨none, none, ⟨7⟩⟩ ⟨[], []⟩
        ⟨[], [], some (.obj [("title", .str "Sync"),
          ("participants", .arr [.obj [("name", .str "A"), ("email", .str "a@x"),
            ("rsvp", .str "yes")]]),
          ("start_time", .str "2024-01-01T09:00Z"),
          ("end_time", .str "2024-01-01T10:00Z")])⟩ =
      (⟨500, "application/json", .message
        "json: cannot unmarshal value into Go struct field Meeting.Participants of type string"⟩,
        ⟨[], []⟩) ∧
    (GetMeetingEndpoint ⟨none, none, ⟨8⟩⟩
        (CreateMeetingEndpoint ⟨none, none, ⟨7⟩⟩ ⟨[], []⟩
          ⟨[], [], some (.obj [("title", .str "Sync"),
            ("participants", .arr [.obj [("name", .str "A"), ("email", .str "a@x"),
              ("rsvp", .str "yes")]]),
            ("start_time", .str "2024-01-01T09:00Z"),
            ("end_time", .str "2024-01-01T10:00Z")])⟩).2 ⟨[], [], none⟩).1.body =
      .meetings [] := by
  decide

/-! ## Update and delete -/

/-- C5 (amended): for an id that matches no stored meeting, update and delete leave both
collections as they were; the answer has status 200 with zero counts when the store
call raises no error and status 500 when it raises one, and never status 404. -/
theorem update_delete_unknown_id (be : Backend) (connection : Connection)
    (request : Request)
    (h : ∀ d ∈ connection.Meeting, d._id ≠ ObjectIDFromHexOrNil (mapGet request.vars "id")) :
    UpdateMeetingEndpoint be connection request =
        ((match be.fault with
          | some err => ⟨500, "application/json", .message err⟩
          | none => ⟨200, "application/json", .updateResult ⟨0, 0, 0⟩⟩), connection) ∧
      DeleteMeetingEndpoint be connection request =
        ((match be.fault with
          | some err => ⟨500, "application/json", .message err⟩
          | none => ⟨200, "application/json", .deleteResult ⟨0⟩⟩), connection) ∧
      (UpdateMeetingEndpoint be connection request).1.status ≠ 404 ∧
      (DeleteMeetingEndpoint be connection request).1.status ≠ 404 := by
  have hu : UpdateMeetingEndpoint be connection request =
        ((match be.fault with
          | some err => ⟨500, "application/json", .message err⟩
          | none => ⟨200, "application/json", .updateResult ⟨0, 0, 0⟩⟩), connection) := by
    unfold UpdateMeetingEndpoint UpdateOne
    cases hf : be.fault with
    | some e => rfl
    | none =>
      simp only [find_id_none h]
      rfl
  have hdel : DeleteMeetingEndpoint be connection request =
        ((match be.fault with
          | some err => ⟨500, "application/json", .message err⟩
          | none => ⟨200, "application/json", .deleteResult ⟨0⟩⟩), connection) := by
    unfold DeleteMeetingEndpoint DeleteOne
    cases hf : be.fault with
    | some e => rfl
    | none =>
      simp only [any_id_false h]
      rfl
  refine ⟨hu, hdel, ?_, ?_⟩
  · rw [hu]
    cases be.fault <;> simp
  · rw [hdel]
    cases be.fault <;> simp

/-- C5, witness: one stored meeting under id 1, requests to id 2. -/
theorem update_delete_unknown_id_witness :
    UpdateMeetingEndpoint ⟨none, none, ⟨9⟩⟩
        ⟨[⟨⟨1⟩, some "M1", some ["a@x"], some "09:00", some "10:00", none⟩], []⟩
        ⟨[("id", "000000000000000000000002")], [], some (.obj [("title", .str "Standup")])⟩ =
      (⟨200, "application/json", .updateResult ⟨0, 0, 0⟩⟩,
        ⟨[⟨⟨1⟩, some "M1", some ["a@x"], some "09:00", some "10:00", none⟩], []⟩) :=
  (update_delete_unknown_id ⟨none, none, ⟨9⟩⟩
    ⟨[⟨⟨1⟩, some "M1", some ["a@x"], some "09:00", some "10:00", none⟩], []⟩
    ⟨[("id", "000000000000000000000002")], [], some (.obj [("title", .str "Standup")])⟩
    (by decide)).1

/-- C5, counterexample: with one meeting stored under id 1, a PUT and a DELETE to id 2
are answered with status 200, and so is the second of two DELETEs to id 1. -/
theorem update_delete_404_counterexample :
    (UpdateMeetingEndpoint ⟨none, none, ⟨9⟩⟩
        ⟨[⟨⟨1⟩, some "M1", some ["a@x"], some "09:00", some "10:00", none⟩], []⟩
        ⟨[("id", "000000000000000000000002")], [],
          some (.obj [("title", .str "Standup")])⟩).1.status = 200 ∧
    (DeleteMeetingEndpoint ⟨none, none, ⟨9⟩⟩
        ⟨[⟨⟨1⟩, some "M1", some ["a@x"], some "09:00", some "10:00", none⟩], []⟩
        ⟨[("id", "000000000000000000000002")], [], none⟩).1.status = 200 ∧
    (DeleteMeetingEndpoint ⟨none, none, ⟨9⟩⟩
        (DeleteMeetingEndpoint ⟨none, none, ⟨9⟩⟩
          ⟨[⟨⟨1⟩, some "M1", some ["a@x"], some "09:00", some "10:00", none⟩], []⟩
          ⟨[("id", "000000000000000000000001")], [], none⟩).2
        ⟨[("id", "000000000000000000000001")], [], none⟩).1 =
      ⟨200, "application/json", .deleteResult ⟨0⟩⟩ := by
  decide

/-- C6: partial update.  For a meeting `M` stored in `connection.Meeting` (the first one
under its id), a PUT to the id of `M` whose body sets the title alone, to a non-empty
`t`, on a backend that raises no error: the document under `$set` holds the title and
nothing else, the answer has status 200, `M` is replaced by `M` with title `t` and
every other key as before, and no other document changes. -/
theorem UpdateMeetingEndpoint_title_only (be : Backend) (connection : Connection)
    (request : Request) (pre post : List Doc) (M : Doc) (t : String)
    (hstore : connection.Meeting = pre ++ M :: post)
    (hfirst : ∀ d ∈ pre, d._id ≠ M._id)
    (hid : ObjectIDFromHex (mapGet request.vars "id") = .ok M._id)
    (hbody : (Decode request.body).1 = { Meeting.zero with Title := t })
    (ht : t ≠ "") (hf : be.fault = none) :
    (Decode request.body).1.toBSON = ⟨none, some t, none, none, none, none⟩ ∧
      (UpdateMeetingEndpoint be connection request).1.status = 200 ∧
      (UpdateMeetingEndpoint be connection request).2 =
        { connection with
          Meeting := pre ++ { M with title := some t } :: post } := by
  have hid2 : ObjectIDFromHexOrNil (mapGet request.vars "id") = M._id := by
    unfold ObjectIDFromHexOrNil
    rw [hid]
  have hset : ({ Meeting.zero with Title := t } : Meeting).toBSON =
      ⟨none, some t, none, none, none, none⟩ := by
    simp [Meeting.toBSON, Meeting.zero, omitEmpty, ht, ObjectID.IsZero]
  have happ : applySet ⟨none, some t, none, none, none, none⟩ M = { M with title := some t } := by
    simp [applySet]
  refine ⟨by rw [hbody, hset], ?_⟩
  unfold UpdateMeetingEndpoint UpdateOne
  simp only [hid2, hbody, hset, hf, hstore, find_id_split pre post M hfirst,
    replaceFirst_split pre post M _ hfirst, happ]
  simp [encodeResponse, StatusOK]

/-- C6, witness (scenario S5): M1 with title Sync, stored after another meeting, and the
body with the one member title = Standup. -/
theorem UpdateMeetingEndpoint_title_only_witness :
    (UpdateMeetingEndpoint ⟨none, none, ⟨9⟩⟩
        ⟨[⟨⟨2⟩, some "Other", some ["b@x"], some "11:00", some "12:00", some "08:00"⟩,
          ⟨⟨1⟩, some "Sync", some ["a@x"], some "09:00", some "10:00", some "08:30"⟩], []⟩
        ⟨[("id", "000000000000000000000001")], [],
          some (.obj [("title", .str "Standup")])⟩).2 =
      ⟨[⟨⟨2⟩, some "Other", some ["b@x"], some "11:00", some "12:00", some "08:00"⟩,
        ⟨⟨1⟩, some "Standup", some ["a@x"], some "09:00", some "10:00", some "08:30"⟩], []⟩ :=
  (UpdateMeetingEndpoint_title_only ⟨none, none, ⟨9⟩⟩
    ⟨[⟨⟨2⟩, some "Other", some ["b@x"], some "11:00", some "12:00", some "08:00"⟩,
      ⟨⟨1⟩, some "Sync", some ["a@x"], some "09:00", some "10:00", some "08:30"⟩], []⟩
    ⟨[("id", "000000000000000000000001")], [], some (.obj [("title", .str "Standup")])⟩
    [⟨⟨2⟩, some "Other", some ["b@x"], some "11:00", some "12:00", some "08:00"⟩] []
    ⟨⟨1⟩, some "Sync", some ["a@x"], some "09:00", some "10:00", some "08:30"⟩ "Standup"
    rfl (by decide) rfl (by decide) (by decide) rfl).2.2

/-! ## The id of a created meeting -/

theorem withoutID_cons_id (k : String) (v : JSON) (rest : List (String × JSON))
    (hk : lookupField k = some Field.ID) : withoutID ((k, v) :: rest) = withoutID rest := by
  simp [withoutID, hk]

theorem withoutID_cons_other (k : String) (v : JSON) (rest : List (String × JSON))
    (hk : lookupField k ≠ some Field.ID) :
    withoutID ((k, v) :: rest) = (k, v) :: withoutID rest := by
  simp [withoutID, hk]

theorem decodeObject_withoutID (kvs : List (String × JSON)) :
    ∀ (m0 : Meeting) (e : Option String) (m : Meeting) (i : ObjectID),
      decodeObject kvs m0 e = (m, none) →
        decodeObject (withoutID kvs) { m0 with ID := i } e = ({ m with ID := i }, none) := by
  induction kvs with
  | nil =>
    intro m0 e m i h
    simp only [decodeObject, Prod.mk.injEq] at h
    obtain ⟨rfl, rfl⟩ := h
    rfl
  | cons kv rest ih =>
    intro m0 e m i h
    obtain ⟨k, v⟩ := kv
    cases hk : lookupField k with
    | none =>
      rw [withoutID_cons_other k v rest (by simp [hk])]
      simp only [decodeObject, hk] at h ⊢
      exact ih m0 e m i h
    | some f =>
      cases f with
      | ID =>
        rw [withoutID_cons_id k v rest hk]
        simp only [decodeObject, hk] at h
        cases hu : ObjectID.UnmarshalJSON m0.ID v with
        | error err => rw [hu] at h; simp at h
        | ok id =>
          rw [hu] at h
          exact ih { m0 with ID := id } e m i h
      | Title =>
        rw [withoutID_cons_other k v rest (by simp [hk])]
        simp only [decodeObject, hk] at h ⊢
        exact ih _ _ m i h
      | Participants =>
        rw [withoutID_cons_other k v rest (by simp [hk])]
        simp only [decodeObject, hk] at h ⊢
        exact ih _ _ m i h
      | StartTime =>
        rw [withoutID_cons_other k v rest (by simp [hk])]
        simp only [decodeObject, hk] at h ⊢
        exact ih _ _ m i h
      | EndTime =>
        rw [withoutID_cons_other k v rest (by simp [hk])]
        simp only [decodeObject, hk] at h ⊢
        exact ih _ _ m i h
      | CreationTimestap =>
        rw [withoutID_cons_other k v rest (by simp [hk])]
        simp only [decodeObject, hk] at h ⊢
        exact ih _ _ m i h

/-- C8 (amended): the inserted document does depend on an id member of the body.  For an
object body that decodes to `m`, the same body without its id members decodes to `m`
with the zero id, and the two documents handed to `InsertOne` agree on every key but
`_id`: with the id members, `_id` is the id of the body when that is not zero; without
them, or when it is zero, the document has no `_id` and the driver generates one. -/
theorem CreateMeetingEndpoint_client_id (kvs : List (String × JSON)) (m : Meeting)
    (hd : Decode (some (.obj kvs)) = (m, none)) :
    Decode (some (.obj (withoutID kvs))) = ({ m with ID := NilObjectID }, none) ∧
      m.toBSON =
        { ({ m with ID := NilObjectID } : Meeting).toBSON with
          _id := if m.ID = NilObjectID then none else some m.ID } ∧
      ({ m with ID := NilObjectID } : Meeting).toBSON._id = none := by
  refine ⟨?_, ?_, ?_⟩
  · have h := decodeObject_withoutID kvs Meeting.zero none m NilObjectID hd
    exact h
  · by_cases hz : m.ID = NilObjectID <;> simp [Meeting.toBSON, ObjectID.IsZero, hz]
  · simp [Meeting.toBSON, ObjectID.IsZero]

/-- C8, witness: a body with a title and the id 2a. -/
theorem CreateMeetingEndpoint_client_id_witness :
    Decode (some (.obj (withoutID
        [("title", .str "Sync"), ("id", .str "00000000000000000000002a")]))) =
      (⟨NilObjectID, "Sync", [], "", "", ""⟩, none) :=
  (CreateMeetingEndpoint_client_id
    [("title", .str "Sync"), ("id", .str "00000000000000000000002a")]
    ⟨⟨42⟩, "Sync", [], "", "", ""⟩ (by decide)).1

/-- C8, counterexample: two bodies that differ only in the member `id`.  The documents
handed to `InsertOne` differ, and so do the stored documents: the first is stored
under the id generated by the driver, the second under the id of the body. -/
theorem CreateMeetingEndpoint_client_id_counterexample :
    (Decode (some (.obj [("title", .str "Sync")]))).1.toBSON =
      ⟨none, some "Sync", none, none, none, none⟩ ∧
    (Decode (some (.obj [("title", .str "Sync"),
        ("id", .str "00000000000000000000002a")]))).1.toBSON =
      ⟨some ⟨42⟩, some "Sync", none, none, none, none⟩ ∧
    (CreateMeetingEndpoint ⟨none, none, ⟨7⟩⟩ ⟨[], []⟩
        ⟨[], [], some (.obj [("title", .str "Sync")])⟩).2.Meeting =
      [⟨⟨7⟩, some "Sync", none, none, none, none⟩] ∧
    (CreateMeetingEndpoint ⟨none, none, ⟨7⟩⟩ ⟨[], []⟩
        ⟨[], [], some (.obj [("title", .str "Sync"),
          ("id", .str "00000000000000000000002a")])⟩).2.Meeting =
      [⟨⟨42⟩, some "Sync", none, none, none, none⟩] := by
  decide

/-! ## What sequences of requests can reach -/

theorem create_People (be : Backend) (connection : Connection) (request : Request) :
    (CreateMeetingEndpoint be connection request).2.People = connection.People := by
  unfold CreateMeetingEndpoint
  split
  · rfl
  · split <;> rfl

theorem update_People (be : Backend) (connection : Connection) (request : Request) :
    (UpdateMeetingEndpoint be connection request).2.People = connection.People := by
  unfold UpdateMeetingEndpoint
  dsimp only
  split <;> rfl

theorem runCalls_People (calls : List Call) :
    ∀ connection : Connection, (runCalls calls connection).People = connection.People := by
  induction calls with
  | nil => intro connection; rfl
  | cons call rest ih =>
    intro connection
    simp only [runCalls, List.foldl_cons]
    have h := ih (call.apply connection)
    simp only [runCalls] at h
    rw [h]
    cases call with
    | create be request => exact create_People be connection request
    | update be request => exact update_People be connection request

/-- C7: invariant preservation.  Starting from the empty store, after any sequence of
create and update requests, under any behaviour of the backend, the `people` collection
is still empty, so that no participant email carries rsvp = yes, and the store holds no
two distinct meetings with the same start time and a common participant email that
carries rsvp = yes. -/
theorem reachable_no_rsvp_conflict (calls : List Call) :
    (runCalls calls ⟨[], []⟩).People = [] ∧ ¬ rsvpConflict (runCalls calls ⟨[], []⟩) := by
  have hp : (runCalls calls ⟨[], []⟩).People = [] := runCalls_People calls ⟨[], []⟩
  refine ⟨hp, ?_⟩
  rintro ⟨a, b, _, _, _, _, email, _, _, q, hq, _, _⟩
  rw [hp] at hq
  exact List.not_mem_nil q hq

/-- The invariant rests on the empty `people` collection, not on a check made by the
handlers: from a store whose `people` collection holds the person that `main` inserts
(rsvp = yes), posting one body twice stores two distinct meetings with that email and
the same start time. -/
theorem rsvpConflict_from_seeded_people :
    rsvpConflict
      (runCalls
        [.create ⟨none, none, ⟨1⟩⟩
            ⟨[], [], some (.obj [("Title", .str "Sync"),
              ("Participants", .arr [.str "ms@gmail.com"]),
              ("StartTime", .str "2:00"), ("EndTime", .str "4:00")])⟩,
          .create ⟨none, none, ⟨2⟩⟩
            ⟨[], [], some (.obj [("Title", .str "Sync"),
              ("Participants", .arr [.str "ms@gmail.com"]),
              ("StartTime", .str "2:00"), ("EndTime", .str "4:00")])⟩]
        ⟨[], [⟨"Mr. singh", "ms@gmail.com", "yes"⟩]⟩) := by
  refine ⟨⟨⟨1⟩, some "Sync", some ["ms@gmail.com"], some "2:00", some "4:00", none⟩,
    ⟨⟨2⟩, some "Sync", some ["ms@gmail.com"], some "2:00", some "4:00", none⟩,
    ?_, ?_, by decide, rfl, "ms@gmail.com", by simp, by simp,
    ⟨"Mr. singh", "ms@gmail.com", "yes"⟩, ?_, rfl, rfl⟩
  · have h : (runCalls
        [.create ⟨none, none, ⟨1⟩⟩
            ⟨[], [], some (.obj [("Title", .str "Sync"),
              ("Participants", .arr [.str "ms@gmail.com"]),
              ("StartTime", .str "2:00"), ("EndTime", .str "4:00")])⟩,
          .create ⟨none, none, ⟨2⟩⟩
            ⟨[], [], some (.obj [("Title", .str "Sync"),
              ("Participants", .arr [.str "ms@gmail.com"]),
              ("StartTime", .str "2:00"), ("EndTime", .str "4:00")])⟩]
        ⟨[], [⟨"Mr. singh", "ms@gmail.com", "yes"⟩]⟩).Meeting =
        [⟨⟨1⟩, some "Sync", some ["ms@gmail.com"], some "2:00", some "4:00", none⟩,
          ⟨⟨2⟩, some "Sync", some ["ms@gmail.com"], some "2:00", some "4:00", none⟩] := by
      decide
    rw [h]
    exact List.mem_cons_self _ _
  · have h : (runCalls
        [.create ⟨none, none, ⟨1⟩⟩
            ⟨[], [], some (.obj [("Title", .str "Sync"),
              ("Participants", .arr [.str "ms@gmail.com"]),
              ("StartTime", .str "2:00"), ("EndTime", .str "4:00")])⟩,
          .create ⟨none, none, ⟨2⟩⟩
            ⟨[], [], some (.obj [("Title", .str "Sync"),
              ("Participants", .arr [.str "ms@gmail.com"]),
              ("StartTime", .str "2:00"), ("EndTime", .str "4:00")])⟩]
        ⟨[], [⟨"Mr. singh", "ms@gmail.com", "yes"⟩]⟩).Meeting =
        [⟨⟨1⟩, some "Sync", some ["ms@gmail.com"], some "2:00", some "4:00", none⟩,
          ⟨⟨2⟩, some "Sync", some ["ms@gmail.com"], some "2:00", some "4:00", none⟩] := by
      decide
    rw [h]
    exact List.mem_cons_of_mem _ (List.mem_cons_self _ _)
  · have h : (runCalls
        [.create ⟨none, none, ⟨1⟩⟩
            ⟨[], [], some (.obj [("Title", .str "Sync"),
              ("Participants", .arr [.str "ms@gmail.com"]),
              ("StartTime", .str "2:00"), ("EndTime", .str "4:00")])⟩,
          .create ⟨none, none, ⟨2⟩⟩
            ⟨[], [], some (.obj [("Title", .str "Sync"),
              ("Participants", .arr [.str "ms@gmail.com"]),
              ("StartTime", .str "2:00"), ("EndTime", .str "4:00")])⟩]
        ⟨[], [⟨"Mr. singh", "ms@gmail.com", "yes"⟩]⟩).People =
        [⟨"Mr. singh", "ms@gmail.com", "yes"⟩] := by
      decide
    rw [h]
    exact List.mem_cons_self _ _

/-! # Properties of the wiki path check -/

/-! ## Threads of each construct -/

theorem mem_run_cat (a b : Regexp) (t u : Thread) :
    u ∈ run (.cat a b) t ↔ ∃ v, v ∈ run a t ∧ u ∈ run b v := by
  simp [run, List.mem_flatMap]

theorem mem_run_alt (a b : Regexp) (t u : Thread) :
    u ∈ run (.alt a b) t ↔ u ∈ run a t ∨ u ∈ run b t := by
  simp [run]

theorem mem_run_beginText (t u : Thread) :
    u ∈ run .beginText t ↔ t.pos = 0 ∧ u = t := by
  unfold run
  split <;> simp_all

theorem mem_run_endText (t u : Thread) :
    u ∈ run .endText t ↔ t.rest = [] ∧ u = t := by
  unfold run
  split <;> simp_all

theorem mem_run_lit (c : Char) (t u : Thread) :
    u ∈ run (.lit c) t ↔ ∃ xs, t.rest = c :: xs ∧ u = ⟨t.pos + 1, xs, t.caps⟩ := by
  obtain ⟨pos, rest, caps⟩ := t
  cases rest with
  | nil => simp [run]
  | cons x xs =>
    by_cases hx : x = c
    · subst hx
      simp [run]
    · simp [run, hx]

theorem mem_run_cls (R : List (Char × Char)) (t u : Thread) :
    u ∈ run (.cls R) t ↔
      ∃ x xs, t.rest = x :: xs ∧ inClass R x = true ∧ u = ⟨t.pos + 1, xs, t.caps⟩ := by
  obtain ⟨pos, rest, caps⟩ := t
  cases rest with
  | nil => simp [run]
  | cons x xs =>
    by_cases hx : inClass R x = true
    · simp only [run, hx, if_true, List.mem_singleton, List.cons.injEq]
      constructor
      · rintro rfl
        exact ⟨x, xs, ⟨rfl, rfl⟩, hx, rfl⟩
      · rintro ⟨y, ys, ⟨rfl, rfl⟩, _, rfl⟩
        rfl
    · simp only [run, hx, List.cons.injEq]
      constructor
      · intro h; simp at h
      · rintro ⟨y, ys, ⟨rfl, rfl⟩, hy, _⟩
        exact absurd hy hx

theorem mem_run_group (n : Nat) (a : Regexp) (t u : Thread) :
    u ∈ run (.group n a) t ↔
      ∃ v, v ∈ run a t ∧ u = { v with caps := (n, t.rest.take (v.pos - t.pos)) :: v.caps } := by
  simp only [run, List.mem_map]
  constructor
  · rintro ⟨v, hv, rfl⟩
    exact ⟨v, hv, rfl⟩
  · rintro ⟨v, hv, rfl⟩
    exact ⟨v, hv, rfl⟩

theorem mem_run_text (w : List Char) :
    ∀ (t u : Thread), u ∈ run (Regexp.text w) t ↔
      ∃ xs, t.rest = w ++ xs ∧ u = ⟨t.pos + w.length, xs, t.caps⟩ := by
  induction w with
  | nil =>
    intro t u
    simp [Regexp.text, run]
  | cons c cs ih =>
    intro t u
    cases cs with
    | nil =>
      simp only [Regexp.text, mem_run_lit]
      simp
    | cons d ds =>
      simp only [Regexp.text, mem_run_cat, mem_run_lit]
      constructor
      · rintro ⟨v, ⟨xs, hxs, rfl⟩, hu⟩
        rw [ih] at hu
        obtain ⟨ys, hys, rfl⟩ := hu
        simp only at hys
        refine ⟨ys, ?_, ?_⟩
        · rw [hxs, hys]; rfl
        · simp [Nat.add_assoc, Nat.add_comm]
      · rintro ⟨xs, hxs, rfl⟩
        refine ⟨⟨t.pos + 1, (d :: ds) ++ xs, t.caps⟩, ⟨_, hxs, rfl⟩, ?_⟩
        rw [ih]
        exact ⟨xs, rfl, by simp [Nat.add_assoc, Nat.add_comm]⟩

theorem mem_iterate_cls (R : List (Char × Char)) (n : Nat) :
    ∀ (t u : Thread), u ∈ iterate (run (.cls R)) n t →
      ∃ w, w ≠ [] ∧ (∀ c ∈ w, inClass R c = true) ∧ t.rest = w ++ u.rest ∧
        u.pos = t.pos + w.length ∧ u.caps = t.caps := by
  induction n with
  | zero => intro t u h; simp [iterate] at h
  | succ n ih =>
    intro t u h
    simp only [iterate, List.mem_flatMap, List.mem_append, List.mem_singleton] at h
    obtain ⟨v, hv, hu⟩ := h
    rw [mem_run_cls] at hv
    obtain ⟨x, xs, hrest, hx, rfl⟩ := hv
    rcases hu with hu | rfl
    · split at hu
      · obtain ⟨w, hw, hall, hr, hp, hc⟩ := ih _ u hu
        refine ⟨x :: w, by simp, ?_, ?_, ?_, hc⟩
        · intro c hcm
          rcases List.mem_cons.mp hcm with rfl | hcm
          · exact hx
          · exact hall c hcm
        · simp only at hr
          rw [hrest, hr]; rfl
        · simp only at hp
          rw [hp]; simp only [List.length_cons]; omega
      · simp at hu
    · exact ⟨[x], by simp, by simpa using hx, by simpa using hrest, rfl, rfl⟩

theorem iterate_cls_mem (R : List (Char × Char)) (w : List Char) :
    w ≠ [] → (∀ c ∈ w, inClass R c = true) →
      ∀ (n pos : Nat) (xs : List Char) (caps : List (Nat × List Char)),
        (w ++ xs).length < n →
          (⟨pos + w.length, xs, caps⟩ : Thread) ∈
            iterate (run (.cls R)) n ⟨pos, w ++ xs, caps⟩ := by
  induction w with
  | nil => intro h; exact absurd rfl h
  | cons x w ih =>
    intro _ hall n pos xs caps hn
    cases n with
    | zero => simp at hn
    | succ n =>
      have hx : inClass R x = true := hall x (List.mem_cons_self _ _)
      simp only [iterate, List.mem_flatMap, List.mem_append, List.mem_singleton]
      refine ⟨⟨pos + 1, w ++ xs, caps⟩, ?_, ?_⟩
      · rw [mem_run_cls]
        exact ⟨x, w ++ xs, rfl, hx, rfl⟩
      · cases w with
        | nil => right; simp
        | cons y ys =>
          left
          have hlt : ((y :: ys) ++ xs).length < (x :: ((y :: ys) ++ xs)).length := by simp
          simp only [List.cons_append] at hlt ⊢
          rw [if_pos hlt]
          have := ih (by simp) (fun c hc => hall c (List.mem_cons_of_mem _ hc)) n (pos + 1) xs caps
            (by simp at hn ⊢; omega)
          simpa [Nat.add_assoc, Nat.add_comm 1] using this

/-! ## The threads of `validPath` -/

theorem run_plus (a : Regexp) (t : Thread) :
    run (.plus a) t = iterate (run a) (t.rest.length + 1) t := by
  simp only [run]

theorem inClass_alnum (c : Char) :
    inClass [('a', 'z'), ('A', 'Z'), ('0', '9')] c = true ↔ isAlnum c := by
  simp [inClass, isAlnum]

theorem action_length {a : List Char} (ha : isAction a) : a.length = 4 := by
  rcases ha with rfl | rfl | rfl <;> rfl

theorem mem_run_actions (t u : Thread) :
    u ∈ run (.alt (Regexp.text ['e', 'd', 'i', 't'])
        (.alt (Regexp.text ['s', 'a', 'v', 'e']) (Regexp.text ['v', 'i', 'e', 'w']))) t ↔
      ∃ a xs, (isAction a) ∧ t.rest = a ++ xs ∧
        u = ⟨t.pos + 4, xs, t.caps⟩ := by
  simp only [mem_run_alt, mem_run_text]
  constructor
  · rintro (⟨xs, h, rfl⟩ | ⟨xs, h, rfl⟩ | ⟨xs, h, rfl⟩)
    · exact ⟨_, xs, Or.inl rfl, h, rfl⟩
    · exact ⟨_, xs, Or.inr (Or.inl rfl), h, rfl⟩
    · exact ⟨_, xs, Or.inr (Or.inr rfl), h, rfl⟩
  · rintro ⟨a, xs, (rfl | rfl | rfl), h, rfl⟩
    · exact Or.inl ⟨xs, h, rfl⟩
    · exact Or.inr (Or.inl ⟨xs, h, rfl⟩)
    · exact Or.inr (Or.inr ⟨xs, h, rfl⟩)

theorem validPath_sound (s : List Char) (pos : Nat) (u : Thread)
    (h : u ∈ run validPath ⟨pos, s, []⟩) :
    pos = 0 ∧ ∃ a T, isAction a ∧
      s = '/' :: (a ++ '/' :: T) ∧ T ≠ [] ∧ (∀ c ∈ T, isAlnum c) ∧
      u.caps = [(2, T), (1, a)] := by
  unfold validPath at h
  rw [mem_run_cat] at h
  obtain ⟨v1, hv1, h⟩ := h
  rw [mem_run_beginText] at hv1
  obtain ⟨hpos, rfl⟩ := hv1
  rw [mem_run_cat] at h
  obtain ⟨v2, hv2, h⟩ := h
  rw [mem_run_lit] at hv2
  obtain ⟨s1, hs1, rfl⟩ := hv2
  rw [mem_run_cat] at h
  obtain ⟨v3, hv3, h⟩ := h
  rw [mem_run_group] at hv3
  obtain ⟨w3, hw3, rfl⟩ := hv3
  rw [mem_run_actions] at hw3
  obtain ⟨a, s2, ha, hs2, rfl⟩ := hw3
  rw [mem_run_cat] at h
  obtain ⟨v4, hv4, h⟩ := h
  rw [mem_run_lit] at hv4
  obtain ⟨s3, hs3, rfl⟩ := hv4
  rw [mem_run_cat] at h
  obtain ⟨v5, hv5, h⟩ := h
  rw [mem_run_group] at hv5
  obtain ⟨w5, hw5, rfl⟩ := hv5
  rw [mem_run_endText] at h
  obtain ⟨hend, rfl⟩ := h
  simp only at hpos hs1 hs2 hs3 hend
  rw [run_plus] at hw5
  obtain ⟨T, hT, hall, hrest, hp, hc⟩ := mem_iterate_cls _ _ _ _ hw5
  simp only at hrest hp hc
  rw [hend, List.append_nil] at hrest
  have hlen := action_length ha
  have h1 : pos + 1 + 4 + 1 + T.length - (pos + 1 + 4 + 1) = T.length := by omega
  have h2 : pos + 1 + 4 - (pos + 1) = a.length := by omega
  refine ⟨hpos, a, T, ha, ?_, hT, ?_, ?_⟩
  · rw [hs1, hs2, hs3, hrest]
  · intro c hcT
    exact (inClass_alnum c).mp (hall c hcT)
  · simp only [hc, hp, hs2, hrest]
    rw [h1, h2, List.take_length, List.take_left]

theorem validPath_complete (a T : List Char) (ha : isAction a) (hT : T ≠ [])
    (hall : ∀ c ∈ T, isAlnum c) :
    ∃ u, u ∈ run validPath ⟨0, '/' :: (a ++ '/' :: T), []⟩ := by
  have hlen := action_length ha
  have h2 : 0 + 1 + 4 - (0 + 1) = a.length := by omega
  have hmem := iterate_cls_mem [('a', 'z'), ('A', 'Z'), ('0', '9')] T hT
    (fun c hc => (inClass_alnum c).mpr (hall c hc)) (T.length + 1) (0 + 1 + 4 + 1) []
    [(1, (a ++ '/' :: T).take (0 + 1 + 4 - (0 + 1)))] (by simp)
  rw [List.append_nil] at hmem
  refine ⟨⟨0 + 1 + 4 + 1 + T.length, [],
    (2, T.take (0 + 1 + 4 + 1 + T.length - (0 + 1 + 4 + 1))) ::
      [(1, (a ++ '/' :: T).take (0 + 1 + 4 - (0 + 1)))]⟩, ?_⟩
  unfold validPath
  rw [mem_run_cat]
  refine ⟨⟨0, '/' :: (a ++ '/' :: T), []⟩, (mem_run_beginText _ _).mpr ⟨rfl, rfl⟩, ?_⟩
  rw [mem_run_cat]
  refine ⟨⟨0 + 1, a ++ '/' :: T, []⟩, (mem_run_lit _ _ _).mpr ⟨_, rfl, rfl⟩, ?_⟩
  rw [mem_run_cat]
  refine ⟨⟨0 + 1 + 4, '/' :: T, [(1, (a ++ '/' :: T).take (0 + 1 + 4 - (0 + 1)))]⟩,
    (mem_run_group _ _ _ _).mpr
      ⟨⟨0 + 1 + 4, '/' :: T, []⟩, (mem_run_actions _ _).mpr ⟨a, _, ha, rfl, rfl⟩, rfl⟩, ?_⟩
  rw [mem_run_cat]
  refine ⟨⟨0 + 1 + 4 + 1, T, [(1, (a ++ '/' :: T).take (0 + 1 + 4 - (0 + 1)))]⟩,
    (mem_run_lit _ _ _).mpr ⟨_, rfl, rfl⟩, ?_⟩
  rw [mem_run_cat]
  refine ⟨_, (mem_run_group _ _ _ _).mpr
    ⟨⟨0 + 1 + 4 + 1 + T.length, [], [(1, (a ++ '/' :: T).take (0 + 1 + 4 - (0 + 1)))]⟩,
      ?_, rfl⟩, (mem_run_endText _ _).mpr ⟨rfl, rfl⟩⟩
  rw [run_plus]
  exact hmem

theorem search_validPath_later (s : List Char) :
    ∀ pos, search validPath (pos + 1) s = none := by
  induction s with
  | nil =>
    intro pos
    cases hr : run validPath ⟨pos + 1, [], []⟩ with
    | nil => simp [search, hr]
    | cons u us =>
      have := (validPath_sound [] (pos + 1) u (by rw [hr]; exact List.mem_cons_self _ _)).1
      omega
  | cons x xs ih =>
    intro pos
    cases hr : run validPath ⟨pos + 1, x :: xs, []⟩ with
    | nil => simp [search, hr, ih]
    | cons u us =>
      have := (validPath_sound (x :: xs) (pos + 1) u
        (by rw [hr]; exact List.mem_cons_self _ _)).1
      omega

theorem search_validPath (s : List Char) :
    search validPath 0 s = (run validPath ⟨0, s, []⟩).head?.map (fun u => (⟨0, s, []⟩, u)) := by
  cases s with
  | nil => rfl
  | cons x xs =>
    cases hr : run validPath ⟨0, x :: xs, []⟩ with
    | nil => simp [search, hr, search_validPath_later]
    | cons u us => simp [search, hr]

theorem shape_unique {a b T U : List Char} (ha : a.length = 4) (hb : b.length = 4)
    (h : '/' :: (a ++ '/' :: T) = '/' :: (b ++ '/' :: U)) : a = b ∧ T = U := by
  have h1 : a ++ '/' :: T = b ++ '/' :: U := by simpa using h
  have h2 := List.append_inj h1 (by rw [ha, hb])
  exact ⟨h2.1, by simpa using h2.2⟩

theorem FindStringSubmatch_accept (p : String) (a T : List Char)
    (ha : isAction a) (hT : T ≠ [])
    (hall : ∀ c ∈ T, isAlnum c) (hp : p.data = '/' :: (a ++ '/' :: T)) :
    ∃ m, FindStringSubmatch validPath 2 p = some m ∧ m.getD 2 "" = String.mk T := by
  obtain ⟨u0, hu0⟩ := validPath_complete a T ha hT hall
  unfold FindStringSubmatch
  rw [search_validPath, hp]
  cases hr : run validPath ⟨0, '/' :: (a ++ '/' :: T), []⟩ with
  | nil => rw [hr] at hu0; simp at hu0
  | cons u us =>
    obtain ⟨_, b, U, hb, hs, _, _, hc⟩ :=
      validPath_sound _ 0 u (by rw [hr]; exact List.mem_cons_self _ _)
    obtain ⟨rfl, rfl⟩ := shape_unique (action_length ha) (action_length hb) hs
    refine ⟨_, rfl, ?_⟩
    simp [List.range, List.range.loop, capture, hc]

theorem FindStringSubmatch_some (p : String) (m : List String)
    (h : FindStringSubmatch validPath 2 p = some m) :
    ∃ a T, (isAction a) ∧ T ≠ [] ∧
      (∀ c ∈ T, isAlnum c) ∧ p.data = '/' :: (a ++ '/' :: T) := by
  unfold FindStringSubmatch at h
  rw [search_validPath] at h
  cases hr : run validPath ⟨0, p.data, []⟩ with
  | nil => rw [hr] at h; simp at h
  | cons u us =>
    obtain ⟨_, a, T, ha, hs, hT, hall, _⟩ :=
      validPath_sound _ 0 u (by rw [hr]; exact List.mem_cons_self _ _)
    exact ⟨a, T, ha, hT, hall, hs⟩

/-! ## The handler built by `makeHandler` -/

theorem wikiPath_data (action T : String) :
    (wikiPath action T).data = '/' :: (action.data ++ '/' :: T.data) := by
  simp [wikiPath, String.data_append]

theorem isAction_of_mem {action : String} (h : action ∈ wikiActions) : isAction action.data := by
  simp only [wikiActions, List.mem_cons, List.mem_singleton, List.not_mem_nil, or_false] at h
  rcases h with rfl | rfl | rfl
  · exact Or.inl rfl
  · exact Or.inr (Or.inl rfl)
  · exact Or.inr (Or.inr rfl)

theorem mem_of_isAction {a : List Char} (h : isAction a) : String.mk a ∈ wikiActions := by
  rcases h with rfl | rfl | rfl <;> decide

theorem makeHandler_accept {α : Type} (fn : String → α) (p action T : String)
    (ha : action ∈ wikiActions) (hT : validTitle T) (hp : p = wikiPath action T) :
    makeHandler fn p = .called (fn T) := by
  obtain ⟨m, hm, hm2⟩ := FindStringSubmatch_accept p action.data T.data (isAction_of_mem ha)
    hT.1 hT.2 (by rw [hp, wikiPath_data])
  unfold makeHandler
  rw [hm]
  simp only [hm2]

theorem makeHandler_called {α : Type} (fn : String → α) (p : String) (r : α)
    (h : makeHandler fn p = .called r) :
    ∃ action T, action ∈ wikiActions ∧ validTitle T ∧ p = wikiPath action T := by
  unfold makeHandler at h
  cases hm : FindStringSubmatch validPath 2 p with
  | none => rw [hm] at h; cases h
  | some m =>
    obtain ⟨a, T, ha, hT, hall, hp⟩ := FindStringSubmatch_some p m hm
    refine ⟨String.mk a, String.mk T, mem_of_isAction ha, ⟨hT, hall⟩, ?_⟩
    apply String.ext
    rw [wikiPath_data, hp]

/-- C10: the handler returned by `makeHandler(fn)` calls `fn` exactly on the paths
`/edit/T`, `/save/T` and `/view/T` with `T` a non-empty string of ASCII letters and
digits, and the title it passes is `T`; on every other path it answers 404 and does not
call `fn`.  A title that reaches `fn` is therefore made of ASCII letters and digits
only, and the file name `title + ".txt"` of `loadPage` and `save` has no '/' and no
'.' before its suffix. -/
theorem makeHandler_validPath {α : Type} (fn : String → α) (p : String) :
    (∀ action T, action ∈ wikiActions → validTitle T → p = wikiPath action T →
        makeHandler fn p = .called (fn T)) ∧
      ((¬ ∃ action T, action ∈ wikiActions ∧ validTitle T ∧ p = wikiPath action T) →
        makeHandler fn p = .NotFound ∧ (makeHandler fn p).ownStatus = some 404) ∧
      (∀ title, makeHandler (fun t => t) p = .called title →
        validTitle title ∧ (filename title).data = title.data ++ ['.', 't', 'x', 't'] ∧
          ∀ c ∈ title.data, isAlnum c ∧ c ≠ '/' ∧ c ≠ '.') := by
  refine ⟨fun action T ha hT hp => makeHandler_accept fn p action T ha hT hp, ?_, ?_⟩
  · intro hno
    cases hm : makeHandler fn p with
    | NotFound => exact ⟨rfl, rfl⟩
    | called r => exact absurd (makeHandler_called fn p r hm) hno
  · intro title h
    obtain ⟨action, T, ha, hT, hp⟩ := makeHandler_called (fun t => t) p title h
    have h2 := makeHandler_accept (fun t => t) p action T ha hT hp
    rw [h2] at h
    cases h
    refine ⟨hT, by simp [filename, String.data_append], ?_⟩
    intro c hc
    have hal := hT.2 c hc
    refine ⟨hal, ?_, ?_⟩
    · rintro rfl
      revert hal
      unfold isAlnum
      decide
    · rintro rfl
      revert hal
      unfold isAlnum
      decide

end GoMongoApi
